import Mathlib

/-!
Shallow embedding of the coefficient-prediction and derivative-composition
pipeline of the pde_superresolution package (model.py and training.py),
together with theorems checking the natural-language specification against it.

Tensors with a statically known rank are embedded as nested lists of
rationals (exact arithmetic standing in for float32); rank-generic tensors
(as handled by resample_mean and subsample) are embedded as a flat row-major
data list together with an explicit shape.  The external collaborator
modules (equations, layers, polynomials and the tf.data input pipeline) are
not part of the two source files, so they enter as an explicit environment
of functions, modelled from the spec where the spec pins down behavior.
Fallible functions (those whose Python counterpart can raise) return
`Except String`.
-/

set_option autoImplicit false

namespace PDE

abbrev T1 := List ℚ
abbrev T2 := List (List ℚ)
abbrev T3 := List (List (List ℚ))
abbrev T4 := List (List (List (List ℚ)))

/-- Entry of a rank-2 nested list at row `e` and column `x` (0 outside). -/
def at2 (t : T2) (e x : ℕ) : ℚ := (t.getD e []).getD x 0

/-- Entry of a rank-3 nested list at indices `e`, `x`, `d` (0 outside). -/
def at3 (t : T3) (e x d : ℕ) : ℚ := ((t.getD e []).getD x []).getD d 0

/-- Dot product of two coefficient lists (a shorter one implicitly truncates,
as the einsum contraction only ever sees equal lengths). -/
def dotL (a b : List ℚ) : ℚ := (a.zipWith (· * ·) b).sum

/-- Width of a batch of 1-D fields, i.e. `inputs.shape[-1]` for a
[batch, x] tensor embedded as a list of rows. -/
def width (inputs : T2) : ℕ := (inputs.getD 0 []).length

/-- Second dimension of a rank-3 tensor embedded as nested lists. -/
def dim2 (t : T3) : ℕ := (t.getD 0 []).length

/-- Third dimension of a rank-3 tensor embedded as nested lists. -/
def dim3 (t : T3) : ℕ := ((t.getD 0 []).getD 0 []).length

/-- Wrap an integer index onto `[0, W)` (Euclidean remainder). -/
def cyclIdx (W : ℕ) (z : ℤ) : ℕ := (z % (W : ℤ)).toNat

/- ### Data model of the external collaborators (spec sections 3, 4.2, 4.4) -/

/-- Stencil grid: an ordered sequence of integer point offsets
(spec section 3, produced by polynomials.regular_finite_difference_grid). -/
structure Grid where
  offsets : List ℤ
  deriving Repr, DecidableEq

/-- Number of points of a stencil grid (`grid.size` in the source). -/
def Grid.size (g : Grid) : ℕ := g.offsets.length

/-- Modelled from the spec: polynomials.PolynomialAccuracyLayer (module
polynomials is not under src/).  Spec 4.2: it holds a particular solution
(`bias`), an orthonormal nullspace basis, an output scale, and accepts raw
vectors whose length is the nullspace dimension (`input_size`). -/
structure PolynomialAccuracyLayer where
  input_size : ℕ
  bias : List ℚ
  nullspace : List (List ℚ)
  out_scale : ℚ

/-- Modelled from the spec (4.2): the constrained layer maps a raw vector to
`particular_solution + nullspace_basis . (out_scale * raw_vector)`. -/
def PolynomialAccuracyLayer.apply (L : PolynomialAccuracyLayer) (raw : List ℚ) : List ℚ :=
  (List.range L.bias.length).map fun j =>
    L.bias.getD j 0 + L.out_scale * dotL raw (L.nullspace.map (·.getD j 0))

/-- Modelled from the spec (4.4): an instantiated equation - the external
collaborator contract.  The derivatives dictionary is the map from a
derivative order to the corresponding spatial-derivative tensor. -/
structure Equation where
  DERIVATIVE_ORDERS : List ℕ
  GRID_OFFSET : Bool
  dx : ℚ
  equation_of_motion : T2 → (ℕ → Option T2) → T2

/-- Modelled from the spec (4.4): an equation class as returned by
equations.from_hparams; instantiating it with a number of grid points
yields an `Equation` sharing the class-level attributes. -/
structure EquationType where
  DERIVATIVE_ORDERS : List ℕ
  GRID_OFFSET : Bool
  dxOf : ℕ → ℚ
  equation_of_motion : T2 → (ℕ → Option T2) → T2

/-- Instantiation `equation_type(num_points)` of an equation class. -/
def EquationType.make (et : EquationType) (num_points : ℕ) : Equation :=
  ⟨et.DERIVATIVE_ORDERS, et.GRID_OFFSET, et.dxOf num_points, et.equation_of_motion⟩

/-- The in-memory dataset produced by load_dataset(make_dataset(...)):
the three tensors documented for model_inputs. -/
structure LoadedData where
  labels : T3
  baseline : T3
  inputs : T2

/-- Hyperparameter record, mirroring training.create_hparams (fields that
only steer the excluded training loop are omitted). -/
structure HParams where
  equation : String
  conservative : Bool
  resample_factor : ℕ
  resample_method : String
  base_batch_size : ℕ
  num_layers : ℕ
  filter_size : ℕ
  polynomial_accuracy_order : ℕ
  polynomial_accuracy_scale : ℚ
  ensure_unbiased_coefficients : Bool
  coefficient_grid_min_size : ℕ
  relative_error_weight : ℚ
  time_derivative_weight : ℚ
  frac_training : ℚ
  error_floor_quantile : ℚ

/-- Modelled from the spec: the environment of external collaborators that
the two source files import but that are not under src/ - the equations
catalogue (equations.from_hparams), the linear-algebra helpers
(polynomials.regular_finite_difference_grid with arguments grid offset
convention, derivative order, accuracy order and spacing, and
polynomials.apply_finite_differences), the learned layers
(layers.batch_normalization stand-in for tf.layers.batch_normalization,
layers.conv1d_periodic_layer indexed by its position in the stack, with
filter count, kernel size, relu flag and centering flag), the constrained
layer constructor (polynomials.PolynomialAccuracyLayer), and the TensorFlow
variable store (tf.get_variable, addressed by name and entry position).
Theorems quantify over this environment. -/
structure Env where
  from_hparams : HParams → EquationType
  regular_finite_difference_grid : Bool → ℕ → ℕ → ℚ → Grid
  apply_finite_differences : T2 → Grid → ℕ → T2
  batch_normalization : T3 → Bool → T3
  conv1d_periodic_layer : ℕ → T3 → ℕ → ℕ → Bool → Bool → T3
  poly_accuracy_layer : Grid → ℕ → ℕ → ℚ → PolynomialAccuracyLayer
  get_variable : String → ℕ → ℕ → ℚ

/-- A dynamically typed Python argument: the positions where the source
passes either an HParams object or a Tensor are embedded with this sum,
so that the actual argument of each call site can be written down. -/
inductive PyObj where
  | hparams (h : HParams)
  | tensor (t : T2)

/-- Reading hyperparameter attributes off a dynamically typed argument:
succeeds on an HParams object and raises AttributeError on a tensor. -/
def asHParams : PyObj → Except String HParams
  | PyObj.hparams h => Except.ok h
  | PyObj.tensor _ => Except.error "AttributeError: not an HParams object"

deriving instance DecidableEq for Except

/- ### Rank-generic tensors, resample_mean and subsample (model.py lines 48-82) -/

/-- Rank-generic tensor: an explicit shape plus flat row-major data. -/
structure Tensor where
  shape : List ℕ
  data : List ℚ
  deriving Repr, DecidableEq

/-- Block means of consecutive groups of `factor` elements: the composition
of `tf.reshape(inputs, [-1, x // factor, factor])` with
`tf.reduce_mean(..., axis=2)` acting on the flat row-major data. -/
def blockMeans (factor : ℕ) (l : List ℚ) : List ℚ :=
  (List.range (l.length / factor)).map fun m =>
    (((l.drop (factor * m)).take factor).sum) / factor

/-- Embedding of model.resample_mean: resample data to a lower resolution
with the mean.  Raises ValueError if the input is not rank 2 or the
x-dimension is not evenly divided by `factor`; the batch dimension of the
result is inferred from the data size, as by the -1 in tf.reshape. -/
def resample_mean (inputs : Tensor) (factor : ℕ) : Except String Tensor :=
  if inputs.shape.length ≠ 2 ∨ (inputs.shape.getD 1 0) % factor ≠ 0 then
    Except.error "invalid input shape"
  else
    Except.ok ⟨[inputs.data.length / inputs.shape.getD 1 0,
                inputs.shape.getD 1 0 / factor],
               blockMeans factor inputs.data⟩

/-- Embedding of model.subsample: resample data to a lower resolution by
keeping every `factor`-th data point (`inputs[:, ::factor]`).  Raises
ValueError under exactly the same condition as resample_mean. -/
def subsample (inputs : Tensor) (factor : ℕ) : Except String Tensor :=
  if inputs.shape.length ≠ 2 ∨ (inputs.shape.getD 1 0) % factor ≠ 0 then
    Except.error "invalid input shape"
  else
    Except.ok ⟨[inputs.data.length / inputs.shape.getD 1 0,
                inputs.shape.getD 1 0 / factor],
               (List.range (inputs.data.length / inputs.shape.getD 1 0)).flatMap
                 fun b => (List.range (inputs.shape.getD 1 0 / factor)).map
                   fun j => inputs.data.getD
                     (b * inputs.shape.getD 1 0 + factor * j) 0⟩

/- ### Periodic stencil extraction (model.py lines 267-299) -/

/-- Modelled from the spec: layers.pad_periodic (module layers is not under
src/).  Spec 4.1 and 2: circular (periodic) boundary wrap; with the
centering convention the left padding is half the total padding (rounded
down); padding larger than the width wraps the same points multiple
times. -/
def pad_periodic (u : List ℚ) (padding : ℕ) (center : Bool) : List ℚ :=
  (List.range (u.length + padding)).map fun k : ℕ =>
    u.getD (cyclIdx u.length ((k : ℤ) - ((if center then padding / 2 else 0 : ℕ) : ℤ))) 0

/-- Embedding of model.extract_patches: pad periodically by `size - 1` with
centering, then take every window of `size` consecutive entries (the
tf.extract_image_patches call with VALID padding and unit strides). -/
def extract_patches (inputs : T2) (size : ℕ) : T3 :=
  inputs.map fun u =>
    let padded := pad_periodic u (size - 1) true
    (List.range u.length).map fun i => (padded.drop i).take size

/-- Embedding of model.apply_coefficients: contract each coefficient vector
with the patch at its position (`tf.einsum('bxdi,bxi->bxd', ...)`), the
patch size being the length of the coefficient axis. -/
def apply_coefficients (coefficients : T4) (inputs : T2) : T3 :=
  let size := (((coefficients.getD 0 []).getD 0 []).getD 0 []).length
  let patches := extract_patches inputs size
  coefficients.zipWith (fun crow prow =>
    crow.zipWith (fun cvecs patch => cvecs.map fun cv => dotL cv patch) prow) patches

/-- Circular left shift of every row of a batch of fields by `k` positions:
row entry `i` of the result holds row entry `(i + k) mod W` of the input. -/
def rollField (xs : T2) (k : ℕ) : T2 :=
  xs.map fun u => (List.range u.length).map fun i => u.getD ((i + k) % u.length) 0

/- ### Coefficient prediction (model.py lines 185-264) -/

/-- Subtract from every entry the mean over the coefficient axis
(`outputs -= tf.reduce_mean(outputs, axis=-1, keepdims=True)`). -/
def demean (v : List ℚ) : List ℚ := v.map fun x => x - v.sum / (v.length : ℚ)

/-- Start offsets of consecutive slices of the given sizes
(`starts = [0] + cum_sizes[:-1].tolist()`). -/
def startsOf (sizes : List ℕ) : List ℕ :=
  (List.range sizes.length).map fun i => (sizes.take i).sum

/-- Embedding of model.predict_coefficients.  Follows the source branch for
branch: with zero layers, a single learned coefficient matrix is tiled over
batch and position; otherwise a periodic convolutional stack runs over the
normalized input, after which either the raw reshaped output is (optionally,
after checking that no zeroth derivative is a target) de-meaned along the
coefficient axis, or each per-derivative slice is fed through its
polynomial-accuracy projection layer. -/
def predict_coefficients (env : Env) (inputs : T2) (hparams : PyObj) (training : Bool) :
    Except String T4 :=
  match asHParams hparams with
  | Except.error e => Except.error e
  | Except.ok h =>
    let equation_type := env.from_hparams h
    let num_derivatives := equation_type.DERIVATIVE_ORDERS.length
    let grid := env.regular_finite_difference_grid equation_type.GRID_OFFSET 0
        h.coefficient_grid_min_size 1
    if h.num_layers = 0 then
      let coefficients := (List.range num_derivatives).map fun d =>
        (List.range grid.size).map fun c => env.get_variable "coefficients" d c
      Except.ok ((List.range inputs.length).map fun _ =>
        (List.range (width inputs)).map fun _ => coefficients)
    else
      let net0 := inputs.map fun u => u.map fun v => [v]
      let net1 := env.batch_normalization net0 training
      let net := (List.range (h.num_layers - 1)).foldl
        (fun acc idx => env.conv1d_periodic_layer idx acc h.filter_size 3 true true) net1
      if h.polynomial_accuracy_order = 0 then
        let netF := env.conv1d_periodic_layer (h.num_layers - 1) net
          (num_derivatives * grid.size) 3 false true
        let outputs := netF.map fun row => row.map fun chans =>
          (List.range num_derivatives).map fun d => (chans.drop (d * grid.size)).take grid.size
        if h.ensure_unbiased_coefficients then
          if 0 ∈ equation_type.DERIVATIVE_ORDERS then
            Except.error "ensure_unbiased not yet supported for 0th order spatial derivatives"
          else
            Except.ok (outputs.map fun row => row.map fun ds => ds.map demean)
        else
          Except.ok outputs
      else
        let poly_accuracy_layers := equation_type.DERIVATIVE_ORDERS.map fun derivative_order =>
          env.poly_accuracy_layer grid derivative_order h.polynomial_accuracy_order
            h.polynomial_accuracy_scale
        let input_sizes := poly_accuracy_layers.map (·.input_size)
        let netF := env.conv1d_periodic_layer (h.num_layers - 1) net input_sizes.sum 3 false true
        Except.ok (netF.map fun row => row.map fun chans =>
          ((startsOf input_sizes).zip poly_accuracy_layers).map fun p =>
            p.2.apply ((chans.drop p.1).take p.2.input_size))

/- ### Derivative composition pipeline (model.py lines 91-106 and 302-390) -/

/-- A Python dict built from a list of key-value pairs: a later binding of
the same key overwrites an earlier one. -/
def dictOf {α : Type} (pairs : List (ℕ × α)) : ℕ → Option α := fun k =>
  ((pairs.filter fun p => p.1 == k).getLast?).map Prod.snd

/-- Channel `i` of a [batch, x, derivative] tensor (`t[..., i]`). -/
def chan (t : T3) (i : ℕ) : T2 := t.map fun r => r.map fun cell => cell.getD i 0

/-- The dict `{d: derivatives[..., i] for i, d in enumerate(orders)}` built
by apply_space_derivatives. -/
def space_derivatives_dict (orders : List ℕ) (derivatives : T3) : ℕ → Option T2 :=
  dictOf (orders.enum.map fun p => (p.2, chan derivatives p.1))

/-- The per-order finite-difference derivatives computed inside
calculate_baseline_derivatives, one entry per declared derivative order. -/
def baseline_space_derivatives (env : Env) (inputs : T2) (equation : Equation) : List T2 :=
  equation.DERIVATIVE_ORDERS.map fun derivative_order =>
    env.apply_finite_differences inputs
      (env.regular_finite_difference_grid equation.GRID_OFFSET derivative_order 1 equation.dx)
      derivative_order

/-- Embedding of model.calculate_baseline_derivatives: the spatial
finite-difference derivatives in declaration order, followed by the time
derivative obtained from the equation of motion. -/
def calculate_baseline_derivatives (env : Env) (inputs : T2) (equation : Equation) :
    List T2 :=
  let spatial_derivatives_list := baseline_space_derivatives env inputs equation
  let spatial_derivatives := dictOf (equation.DERIVATIVE_ORDERS.zip spatial_derivatives_list)
  let time_derivative := equation.equation_of_motion inputs spatial_derivatives
  spatial_derivatives_list ++ [time_derivative]

/-- Embedding of model.predict_space_derivatives: predict coefficients, then
contract them against the stencil patches. -/
def predict_space_derivatives (env : Env) (inputs : T2) (hparams : PyObj) :
    Except String T3 :=
  match predict_coefficients env inputs hparams true with
  | Except.error e => Except.error e
  | Except.ok coefficients => Except.ok (apply_coefficients coefficients inputs)

/-- Embedding of model.apply_space_derivatives: re-key the derivatives
tensor by derivative order and call the equation of motion. -/
def apply_space_derivatives (env : Env) (derivatives : T3) (inputs : T2) (hparams : PyObj) :
    Except String T2 :=
  match asHParams hparams with
  | Except.error e => Except.error e
  | Except.ok h =>
    let equation_type := env.from_hparams h
    let equation := equation_type.make (width inputs)
    Except.ok (equation.equation_of_motion inputs
      (space_derivatives_dict equation.DERIVATIVE_ORDERS derivatives))

/-- Embedding of model.predict_time_derivative, exactly as written in the
source: the second argument of the inner predict_space_derivatives call is
the `inputs` tensor itself, not the hyperparameters. -/
def predict_time_derivative (env : Env) (inputs : T2) (hparams : PyObj) :
    Except String T2 :=
  match predict_space_derivatives env inputs (PyObj.tensor inputs) with
  | Except.error e => Except.error e
  | Except.ok space_derivatives =>
    apply_space_derivatives env space_derivatives inputs hparams

/-- Embedding of model.stack_space_time: concatenate the time derivative as
one more channel after the space-derivative channels. -/
def stack_space_time (space_derivatives : T3) (time_derivative : T2) : T3 :=
  space_derivatives.zipWith (fun srow trow =>
    srow.zipWith (fun svec tval => svec ++ [tval]) trow) time_derivative

/-- Embedding of model.predict_all_derivatives: space derivatives, the time
derivative computed from them, stacked together. -/
def predict_all_derivatives (env : Env) (inputs : T2) (hparams : PyObj) :
    Except String T3 :=
  match predict_space_derivatives env inputs hparams with
  | Except.error e => Except.error e
  | Except.ok space_derivatives =>
    match apply_space_derivatives env space_derivatives inputs hparams with
    | Except.error e => Except.error e
    | Except.ok time_derivative =>
      Except.ok (stack_space_time space_derivatives time_derivative)

/- ### Loss components and loss-scale calibration
   (model.py lines 398-421, training.py lines 287-324) -/

/-- Cell-wise combination of two rank-3 tensors. -/
def map2cells (f : ℚ → ℚ → ℚ) (a b : T3) : T3 :=
  a.zipWith (fun ra rb => ra.zipWith (fun ca cb => ca.zipWith f cb) rb) b

/-- Embedding of model.loss_components: squared model error, and the squared
model error normalized by the squared baseline error plus the per-channel
error floor (the floor broadcasts along the trailing derivative axis). -/
def loss_components (predictions labels baseline : T3) (error_floor : List ℚ) : T3 × T3 :=
  let model_error := map2cells (fun l p => (l - p) ^ 2) labels predictions
  let baseline_error := map2cells (fun l b => (l - b) ^ 2) labels baseline
  let relative_error := model_error.zipWith (fun mr br =>
    mr.zipWith (fun mc bc => (List.range mc.length).map fun d =>
      mc.getD d 0 / (bc.getD d 0 + error_floor.getD d 0)) br) baseline_error
  (model_error, relative_error)

/-- All-zero predictions of the same shape as the given labels
(`np.zeros_like`). -/
def zeros_like (t : T3) : T3 := t.map (·.map (·.map fun _ => 0))

/-- Insert a rational into an ascending list, keeping it ascending. -/
def insertAsc (x : ℚ) : List ℚ → List ℚ
  | [] => [x]
  | y :: ys => if x ≤ y then x :: y :: ys else y :: insertAsc x ys

/-- Sort a list of rationals ascending (insertion sort). -/
def sortAsc (l : List ℚ) : List ℚ := l.foldr insertAsc []

/-- np.percentile with the default linear interpolation: for a percentage
`q` the value at fractional rank `q/100 * (n-1)` of the sorted data. -/
def npPercentile (values : List ℚ) (q : ℚ) : ℚ :=
  let s := sortAsc values
  let pos : ℚ := q / 100 * ((s.length : ℚ) - 1)
  let i := Int.toNat (Int.floor pos)
  let lo := s.getD i 0
  let hi := s.getD (i + 1) lo
  lo + (pos - i) * (hi - lo)

/-- Mean of a [head, x, derivative]-shaped rank-3 tensor over its first two
axes (`np.mean(..., axis=(1, 2))` applied to one head of the stack). -/
def meanEX (c : T3) : List ℚ :=
  (List.range (dim3 c)).map fun d =>
    ((List.range c.length).map fun e =>
      ((List.range (dim2 c)).map fun x => at3 c e x d).sum).sum
    / ((c.length : ℚ) * (dim2 c))

/- ### The dataset pipeline: model_inputs, make_dataset and load_dataset
   (model.py lines 109-182, training.py lines 269-284) -/

/-- Python 3 round (half to even, banker's rounding), as applied by
`int(round(snapshots.shape[0] * hparams.frac_training))` in make_dataset. -/
def pyRound (q : ℚ) : ℤ :=
  let f := Int.floor q
  if q - f < 1 / 2 then f
  else if 1 / 2 < q - f then f + 1
  else if f % 2 = 0 then f else f + 1

/-- Left-to-right effectful map over a list: the first raised error
propagates, as in a Python list comprehension. -/
def mapExcept {α β : Type} (f : α → Except String β) : List α → Except String (List β)
  | [] => Except.ok []
  | a :: t =>
    match f a with
    | Except.error e => Except.error e
    | Except.ok b =>
      match mapExcept f t with
      | Except.error e => Except.error e
      | Except.ok bs => Except.ok (b :: bs)

/-- Split a list into consecutive chunks of `n` elements, the last chunk
possibly shorter (`tf.data.Dataset.batch` without drop_remainder).  The
fuel argument (instantiated with the list length) only forces termination;
a batch size of zero never occurs (TensorFlow rejects it). -/
def chunkAux {α : Type} : ℕ → ℕ → List α → List (List α)
  | _, _, [] => []
  | 0, _, _ :: _ => []
  | fuel + 1, n, x :: xs => ((x :: xs).take n) :: chunkAux fuel n ((x :: xs).drop n)

/-- Consecutive batches of `n` elements of a list. -/
def chunkList {α : Type} (n : ℕ) (l : List α) : List (List α) := chunkAux l.length n l

/-- View a [batch, x] nested-list tensor as a shape-plus-flat-data tensor
(the representation on which resample_mean and subsample act); real
TensorFlow tensors are rectangular, so the width is the first row's. -/
def toTensor (t : T2) : Tensor := ⟨[t.length, width t], t.flatten⟩

/-- Read a rank-2 shape-plus-flat-data tensor back as nested rows. -/
def ofTensor2 (t : Tensor) : T2 :=
  (List.range (t.shape.getD 0 0)).map fun b =>
    (List.range (t.shape.getD 1 0)).map fun x =>
      t.data.getD (b * t.shape.getD 1 0 + x) 0

/-- The `_RESAMPLE_FUNCS[hparams.resample_method]` dispatch with the factor
applied (functools.partial): resample_mean for 'mean', subsample for
'subsample', a KeyError for anything else. -/
def resampleFunc (method : String) (factor : ℕ) (t : T2) : Except String T2 :=
  match (if method = "mean" then some resample_mean
         else if method = "subsample" then some subsample else none) with
  | none => Except.error "KeyError: unknown resample method"
  | some f =>
    match f (toTensor t) factor with
    | Except.error e => Except.error e
    | Except.ok out => Except.ok (ofTensor2 out)

/-- `tf.stack(list, axis=-1)` on a list of equal-shape [batch, x] tensors:
the result at (b, x) lists the stacked values channel by channel; the
common shape is read off the first tensor. -/
def stack_channels (ts : List T2) : T3 :=
  match ts with
  | [] => []
  | t0 :: _ =>
    (List.range t0.length).map fun b =>
      (List.range (t0.getD b []).length).map fun x =>
        ts.map fun t => at2 t b x

/-- Embedding of model.model_inputs: compute the high-resolution baseline
derivatives, resample each one and stack them as the labels; resample the
inputs, recompute the baseline derivatives at the coarse resolution and
stack them as the baseline. -/
def model_inputs (env : Env) (fine_inputs : T2) (hparams : HParams) :
    Except String LoadedData :=
  let num_x_points := width fine_inputs
  let equation_type := env.from_hparams hparams
  let fine_equation := equation_type.make num_x_points
  let fine_derivatives := calculate_baseline_derivatives env fine_inputs fine_equation
  match mapExcept (resampleFunc hparams.resample_method hparams.resample_factor)
      fine_derivatives with
  | Except.error e => Except.error e
  | Except.ok resampled_derivatives =>
    let labels := stack_channels resampled_derivatives
    match resampleFunc hparams.resample_method hparams.resample_factor fine_inputs with
    | Except.error e => Except.error e
    | Except.ok coarse_inputs =>
      let coarse_equation := equation_type.make (num_x_points / hparams.resample_factor)
      let baseline := stack_channels
        (calculate_baseline_derivatives env coarse_inputs coarse_equation)
      Except.ok ⟨labels, baseline, coarse_inputs⟩

/-- Embedding of model.make_dataset (with repeat = false, as called by
determine_loss_scales) composed with training.load_dataset: slice off the
training or validation fraction of the snapshots, batch with size
base_batch_size * resample_factor, map model_inputs over the batches and
concatenate the results key by key along the batch axis. -/
def make_dataset_loaded (env : Env) (snapshots : T2) (hparams : HParams)
    (training : Bool) : Except String LoadedData :=
  let num_training := Int.toNat (pyRound ((snapshots.length : ℚ) * hparams.frac_training))
  let selected := if training then snapshots.take num_training
                  else snapshots.drop num_training
  let batch_size := hparams.base_batch_size * hparams.resample_factor
  match mapExcept (fun batch => model_inputs env batch hparams)
      (chunkList batch_size selected) with
  | Except.error e => Except.error e
  | Except.ok batch_data =>
    Except.ok ⟨(batch_data.map (·.labels)).flatten,
               (batch_data.map (·.baseline)).flatten,
               (batch_data.map (·.inputs)).flatten⟩

/-- The error floor computed by training.determine_loss_scales from the
loaded dataset: per channel, the configured percentile of the squared
baseline error over the dataset, floored at 1e-12. -/
def dls_error_floor (data : LoadedData) (hparams : HParams) : List ℚ :=
  let percentile := 100 * hparams.error_floor_quantile
  (List.range (dim3 data.labels)).map fun d =>
    max (npPercentile ((List.range data.labels.length).flatMap fun e =>
          (List.range (dim2 data.labels)).map fun x =>
            (at3 data.labels e x d - at3 data.baseline e x d) ^ 2) percentile)
      (1 / 10 ^ 12)

/-- The per-head, per-channel mean of the loss components of the all-zero
prediction over the loaded dataset, as computed by
training.determine_loss_scales (the
`baseline_error = np.mean(components, axis=(1, 2))` value). -/
def dls_mean_zero_error (data : LoadedData) (hparams : HParams) : List (List ℚ) :=
  let error_floor := dls_error_floor data hparams
  let zero_predictions := zeros_like data.labels
  let components := loss_components zero_predictions data.labels data.baseline error_floor
  [meanEX components.1, meanEX components.2]

/-- Embedding of training.determine_loss_scales: load the training dataset
through make_dataset, then return the error floor together with the
per-head, per-channel scale, the reciprocal of the mean zero-prediction
error where that mean is positive and zero elsewhere
(`np.where(baseline_error > 0, 1.0 / baseline_error, 0)`). -/
def determine_loss_scales (env : Env) (snapshots : T2) (hparams : HParams) :
    Except String (List ℚ × List (List ℚ)) :=
  match make_dataset_loaded env snapshots hparams true with
  | Except.error e => Except.error e
  | Except.ok data =>
    let error_floor := dls_error_floor data hparams
    let baseline_error := dls_mean_zero_error data hparams
    let error_scale := baseline_error.map (·.map fun m => if 0 < m then 1 / m else 0)
    Except.ok (error_floor, error_scale)

/- ### Concrete instances used by witnesses and counterexamples -/

/-- A linear advection equation class: one first-order spatial derivative,
equation of motion `u_t = -u_x`. -/
def advEq : EquationType where
  DERIVATIVE_ORDERS := [1]
  GRID_OFFSET := true
  dxOf := fun n => 1 / (n : ℚ)
  equation_of_motion := fun u dict =>
    match dict 1 with
    | some d => d.map (·.map fun x => -x)
    | none => u

/-- A degenerate reaction equation class whose only target derivative order
is 0, with equation of motion returning that channel unchanged. -/
def reactEq : EquationType where
  DERIVATIVE_ORDERS := [0]
  GRID_OFFSET := true
  dxOf := fun n => 1 / (n : ℚ)
  equation_of_motion := fun u dict =>
    match dict 0 with
    | some d => d
    | none => u

/-- A concrete stencil grid of the requested accuracy order. -/
def testGrid (accuracy_order : ℕ) : Grid :=
  ⟨(List.range accuracy_order).map fun t : ℕ => (t : ℤ)⟩

/-- A concrete environment instantiating every external collaborator with
simple computable functions, used for closed witnesses and
counterexamples. -/
def testEnv : Env where
  from_hparams := fun h => if h.equation = "reaction" then reactEq else advEq
  regular_finite_difference_grid := fun _off _d acc _dx => testGrid acc
  apply_finite_differences := fun u _g _d => u
  batch_normalization := fun net _tr => net
  conv1d_periodic_layer := fun _idx net filters _kernel _relu _center =>
    net.map (·.map fun chans => List.replicate filters chans.sum)
  poly_accuracy_layer := fun g _d acc scale =>
    ⟨g.size - (acc + 1), List.replicate g.size 1, [], scale⟩
  get_variable := fun _nm _i _j => 1

/-- Concrete hyperparameters for the advection equation with a zero-layer
(tiled constant coefficient) model. -/
def advHParams : HParams where
  equation := "advection"
  conservative := true
  resample_factor := 4
  resample_method := "subsample"
  base_batch_size := 128
  num_layers := 0
  filter_size := 128
  polynomial_accuracy_order := 0
  polynomial_accuracy_scale := 1
  ensure_unbiased_coefficients := false
  coefficient_grid_min_size := 2
  relative_error_weight := 1 / 1000000
  time_derivative_weight := 1
  frac_training := 4 / 5
  error_floor_quantile := 1 / 10

/-- Hyperparameters selecting the zeroth-order equation with sum-to-zero
de-biasing requested and a zero-layer model. -/
def reactHParams : HParams :=
  { advHParams with equation := "reaction", ensure_unbiased_coefficients := true }

/-- Same as reactHParams but with one convolution layer. -/
def reactHParams1 : HParams := { reactHParams with num_layers := 1 }

/-- Advection hyperparameters with two layers, sum-to-zero de-biasing and no
polynomial-accuracy constraint. -/
def advHParams2 : HParams :=
  { advHParams with num_layers := 2, ensure_unbiased_coefficients := true,
                    filter_size := 3 }

/-- A concrete one-snapshot batch of width 2. -/
def testInputs : T2 := [[1, 2]]

/-- Advection hyperparameters for calibration: the full snapshot set is
training data, the resample factor is 2, and the error-floor quantile is
zero, so the calibration percentile is the minimum of the squared baseline
error. -/
def calibHParams : HParams :=
  { advHParams with error_floor_quantile := 0, resample_factor := 2,
                    frac_training := 1 }

/-- A concrete calibration snapshot batch: one example of width 4. -/
def calibSnapshots : T2 := [[1, 2, 3, 4]]

/-- The dataset that make_dataset plus load_dataset derive from
calibSnapshots under calibHParams (one batch, subsampled by 2; with the
identity finite-difference stub of testEnv the baseline coincides with the
labels, making the calibration degenerate). -/
def calibData : LoadedData :=
  ⟨[[[1, -1], [3, -3]]], [[[1, -1], [3, -3]]], [[1, 3]]⟩

/- ### Helper lemmas on list indexing -/

theorem getD_eq_get {α : Type} (l : List α) (i : ℕ) (d : α) (h : i < l.length) :
    l.getD i d = l[i] := by
  simp [List.getD_eq_getElem?_getD, List.getElem?_eq_getElem h]

theorem getD_rmap {β : Type} (n i : ℕ) (f : ℕ → β) (hi : i < n) (d : β) :
    ((List.range n).map f).getD i d = f i := by
  rw [getD_eq_get _ i d (by simpa using hi)]
  simp

theorem getD_map_lt {α β : Type} (f : α → β) (l : List α) (i : ℕ) (hi : i < l.length)
    (d : β) (d' : α) : (l.map f).getD i d = f (l.getD i d') := by
  rw [getD_eq_get _ i d (by simpa using hi), getD_eq_get _ i d' hi]
  simp

/-- The sum of `take n` after `drop m` is the sum of the `n` entries starting
at position `m`, provided they all exist. -/
theorem sum_drop_take (l : List ℚ) (m n : ℕ) (h : m + n ≤ l.length) :
    ((l.drop m).take n).sum = ((List.range n).map fun c => l.getD (m + c) 0).sum := by
  have hlen : ((l.drop m).take n).length = n := by
    simp only [List.length_take, List.length_drop]
    omega
  have hlist : (l.drop m).take n = (List.range n).map fun c => l.getD (m + c) 0 := by
    apply List.ext_getElem
    · simpa using hlen
    · intro i h1 h2
      have hml : m + i < l.length := by
        simp only [hlen] at h1
        omega
      simp only [List.getElem_take, List.getElem_drop, List.getElem_map,
        List.getElem_range]
      rw [getD_eq_get _ _ _ hml]
  rw [hlist]

/- ### Modular index arithmetic -/

theorem cyclIdx_cast (W : ℕ) (hW : 0 < W) (z : ℤ) : (cyclIdx W z : ℤ) = z % (W : ℤ) := by
  unfold cyclIdx
  exact Int.toNat_of_nonneg (Int.emod_nonneg z (by exact_mod_cast hW.ne'))

theorem cyclIdx_lt (W : ℕ) (hW : 0 < W) (z : ℤ) : cyclIdx W z < W := by
  have h1 : z % (W : ℤ) < (W : ℤ) := Int.emod_lt_of_pos z (by exact_mod_cast hW)
  have h2 : 0 ≤ z % (W : ℤ) := Int.emod_nonneg z (by exact_mod_cast hW.ne')
  unfold cyclIdx
  omega

theorem emod_absorb_left (a b n : ℤ) : (a % n + b) % n = (a + b) % n := by
  conv_lhs => rw [Int.add_emod]
  rw [Int.emod_emod_of_dvd _ dvd_rfl, ← Int.add_emod]

theorem cyclIdx_add_nat (W : ℕ) (hW : 0 < W) (z : ℤ) (k : ℕ) :
    (cyclIdx W z + k) % W = cyclIdx W (z + k) := by
  have key : (((cyclIdx W z + k) % W : ℕ) : ℤ) = ((cyclIdx W (z + k) : ℕ) : ℤ) := by
    push_cast
    rw [cyclIdx_cast W hW, cyclIdx_cast W hW]
    exact emod_absorb_left z k W
  exact_mod_cast key

theorem cyclIdx_congr (W : ℕ) (a b : ℤ) (h : a % (W : ℤ) = b % (W : ℤ)) :
    cyclIdx W a = cyclIdx W b := by
  unfold cyclIdx
  rw [h]

theorem emod_shift_key (W : ℕ) (a c : ℤ) (k j : ℕ) :
    (a - c + j + k) % (W : ℤ) = ((a + k) % (W : ℤ) - c + j) % (W : ℤ) := by
  rw [show a - c + (j : ℤ) + k = (a + k) + ((j : ℤ) - c) by ring]
  rw [show (a + k) % (W : ℤ) - c + (j : ℤ) = (a + k) % (W : ℤ) + ((j : ℤ) - c) by ring]
  rw [emod_absorb_left]

/- ### C7 and C8: resample_mean and subsample -/

/-- C7: for every rank-general input tensor and positive integer factor,
resample_mean and subsample each raise ValueError exactly when the input is
not rank 2 or the spatial width is not evenly divisible by the factor, and
otherwise neither raises. -/
theorem resample_raises_iff (t : Tensor) (factor : ℕ) (hf : 0 < factor)
    (hw : t.data.length = t.shape.prod) :
    ((∃ e, resample_mean t factor = Except.error e) ↔
      (t.shape.length ≠ 2 ∨ ¬ factor ∣ t.shape.getD 1 0)) ∧
    ((∃ e, subsample t factor = Except.error e) ↔
      (t.shape.length ≠ 2 ∨ ¬ factor ∣ t.shape.getD 1 0)) := by
  have hdv : (t.shape.getD 1 0) % factor = 0 ↔ factor ∣ t.shape.getD 1 0 :=
    ⟨Nat.dvd_of_mod_eq_zero, Nat.mod_eq_zero_of_dvd⟩
  constructor
  · by_cases hC : t.shape.length ≠ 2 ∨ (t.shape.getD 1 0) % factor ≠ 0
    · simp only [resample_mean, if_pos hC]
      constructor
      · intro _
        rcases hC with h | h
        · exact Or.inl h
        · exact Or.inr fun hd => h (hdv.mpr hd)
      · intro _
        exact ⟨_, rfl⟩
    · simp only [resample_mean, if_neg hC]
      push_neg at hC
      constructor
      · rintro ⟨e, he⟩
        simp at he
      · rintro (h | h)
        · exact absurd hC.1 h
        · exact absurd (hdv.mp hC.2) h
  · by_cases hC : t.shape.length ≠ 2 ∨ (t.shape.getD 1 0) % factor ≠ 0
    · simp only [subsample, if_pos hC]
      constructor
      · intro _
        rcases hC with h | h
        · exact Or.inl h
        · exact Or.inr fun hd => h (hdv.mpr hd)
      · intro _
        exact ⟨_, rfl⟩
    · simp only [subsample, if_neg hC]
      push_neg at hC
      constructor
      · rintro ⟨e, he⟩
        simp at he
      · rintro (h | h)
        · exact absurd hC.1 h
        · exact absurd (hdv.mp hC.2) h

/-- Witness for C7 at the concrete scenario of the spec: width 15 with
factor 4 is rejected by both resampling functions. -/
theorem resample_raises_iff_witness :
    0 < 4 ∧ (Tensor.mk [2, 15] (List.replicate 30 0)).data.length
      = (Tensor.mk [2, 15] (List.replicate 30 0)).shape.prod ∧
    (∃ e, resample_mean (Tensor.mk [2, 15] (List.replicate 30 0)) 4 = Except.error e) ∧
    (∃ e, subsample (Tensor.mk [2, 15] (List.replicate 30 0)) 4 = Except.error e) := by
  refine ⟨by decide, by decide, ?_, ?_⟩
  · exact (resample_raises_iff (Tensor.mk [2, 15] (List.replicate 30 0)) 4
      (by decide) (by decide)).1.mpr (Or.inr (by decide))
  · exact (resample_raises_iff (Tensor.mk [2, 15] (List.replicate 30 0)) 4
      (by decide) (by decide)).2.mpr (Or.inr (by decide))

/-- C8: on a well-formed rank-2 tensor of width evenly divided by the
factor, resample_mean produces a tensor of width `W / factor` whose entry
`j` of row `b` is the arithmetic mean of the `factor` consecutive inputs of
that row starting at position `factor * j`. -/
theorem resample_mean_block_mean (t : Tensor) (factor B W : ℕ)
    (hshape : t.shape = [B, W]) (hdata : t.data.length = B * W)
    (hW : 0 < W) (hf : 0 < factor) (hdvd : factor ∣ W) :
    ∃ out, resample_mean t factor = Except.ok out ∧
      out.shape = [B, W / factor] ∧
      out.data.length = B * (W / factor) ∧
      ∀ b j, b < B → j < W / factor →
        out.data.getD (b * (W / factor) + j) 0
          = ((List.range factor).map fun c =>
              t.data.getD (b * W + factor * j + c) 0).sum / factor := by
  have hW1 : t.shape.getD 1 0 = W := by rw [hshape]; rfl
  have hmod : W % factor = 0 := Nat.mod_eq_zero_of_dvd hdvd
  have hcond : ¬ (t.shape.length ≠ 2 ∨ (t.shape.getD 1 0) % factor ≠ 0) := by
    push_neg
    exact ⟨by rw [hshape]; rfl, by rw [hW1]; exact hmod⟩
  have hdlen : t.data.length / factor = B * (W / factor) := by
    rw [hdata, Nat.mul_div_assoc B hdvd]
  have hcond2 : ¬ (t.shape.length ≠ 2 ∨ W % factor ≠ 0) := by
    push_neg
    exact ⟨by rw [hshape]; rfl, hmod⟩
  refine ⟨⟨[B, W / factor], blockMeans factor t.data⟩, ?_, rfl, ?_, ?_⟩
  · simp only [resample_mean, hW1, hdata]
    rw [if_neg hcond2, Nat.mul_comm B W, Nat.mul_div_cancel_left _ hW]
  · simp only [blockMeans, List.length_map, List.length_range]
    exact hdlen
  · intro b j hb hj
    have hidx : b * (W / factor) + j < t.data.length / factor := by
      rw [hdlen]
      calc b * (W / factor) + j < b * (W / factor) + (W / factor) := by omega
        _ = (b + 1) * (W / factor) := by ring
        _ ≤ B * (W / factor) := Nat.mul_le_mul_right _ (by omega)
    simp only [blockMeans]
    rw [getD_rmap _ _ _ hidx]
    have hstart : factor * (b * (W / factor) + j) = b * W + factor * j := by
      rw [Nat.mul_add]
      congr 1
      calc factor * (b * (W / factor)) = b * (factor * (W / factor)) := by ring
        _ = b * W := by rw [Nat.mul_div_cancel' hdvd]
    have h1 : factor * j + factor = factor * (j + 1) := by ring
    have h2 : factor * (j + 1) ≤ factor * (W / factor) := Nat.mul_le_mul_left _ (by omega)
    have h3 : factor * (W / factor) = W := Nat.mul_div_cancel' hdvd
    have h4 : b * W + W ≤ B * W := by
      calc b * W + W = (b + 1) * W := by ring
        _ ≤ B * W := Nat.mul_le_mul_right _ (by omega)
    have hbound : (b * W + factor * j) + factor ≤ t.data.length := by omega
    rw [hstart, sum_drop_take _ _ _ hbound]

/-- Witness for C8 at the concrete scenario of the spec: width 16 with
factor 4, one batch row holding 0..15; entry 0 is the mean of 0,1,2,3. -/
theorem resample_mean_block_mean_witness :
    (Tensor.mk [1, 16] ((List.range 16).map fun n : ℕ => (n : ℚ))).shape = [1, 16] ∧
    (Tensor.mk [1, 16] ((List.range 16).map fun n : ℕ => (n : ℚ))).data.length = 1 * 16 ∧
    0 < 16 ∧ 0 < 4 ∧ (4 ∣ 16) ∧
    (∃ out, resample_mean (Tensor.mk [1, 16] ((List.range 16).map fun n : ℕ => (n : ℚ))) 4
        = Except.ok out ∧
      out.shape = [1, 16 / 4] ∧
      out.data.length = 1 * (16 / 4) ∧
      ∀ b j, b < 1 → j < 16 / 4 →
        out.data.getD (b * (16 / 4) + j) 0
          = ((List.range 4).map fun c =>
              (Tensor.mk [1, 16] ((List.range 16).map fun n : ℕ => (n : ℚ))).data.getD
                (b * 16 + 4 * j + c) 0).sum / 4) := by
  refine ⟨by decide, by decide, by decide, by decide, by decide, ?_⟩
  exact resample_mean_block_mean (Tensor.mk [1, 16] ((List.range 16).map fun n : ℕ => (n : ℚ)))
    4 1 16 (by decide) (by decide) (by decide) (by decide) (by decide)

/- ### C3: periodic stencil extraction -/

theorem pad_periodic_getD (u : List ℚ) (padding k : ℕ) (c : Bool)
    (hk : k < u.length + padding) :
    (pad_periodic u padding c).getD k 0
      = u.getD (cyclIdx u.length ((k : ℤ) - ((if c then padding / 2 else 0 : ℕ) : ℤ))) 0 := by
  unfold pad_periodic
  exact getD_rmap _ _ _ hk _

theorem pad_periodic_length (u : List ℚ) (padding : ℕ) (c : Bool) :
    (pad_periodic u padding c).length = u.length + padding := by
  simp [pad_periodic]

/-- The entry formula of extract_patches: position `i` of a row of width `W`
holds the `size` consecutive field values starting at `i` minus the
centering offset `(size - 1) / 2`, indices wrapped modulo `W`. -/
theorem extract_patches_entry (xs : T2) (S b i j : ℕ)
    (hb : b < xs.length) (hi : i < (xs.getD b []).length) (hj : j < S) :
    at3 (extract_patches xs S) b i j
      = (xs.getD b []).getD
          (cyclIdx (xs.getD b []).length
            ((i : ℤ) - (((S - 1) / 2 : ℕ) : ℤ) + (j : ℤ))) 0 := by
  unfold at3 extract_patches
  rw [getD_map_lt _ xs b hb [] []]
  rw [getD_rmap _ _ _ hi]
  have hplen : (pad_periodic (xs.getD b []) (S - 1) true).length
      = (xs.getD b []).length + (S - 1) := pad_periodic_length _ _ _
  have hij : i + j < (xs.getD b []).length + (S - 1) := by omega
  have hjlen : j < (((pad_periodic (xs.getD b []) (S - 1) true).drop i).take S).length := by
    simp only [List.length_take, List.length_drop, hplen]
    omega
  rw [getD_eq_get _ _ _ hjlen]
  have hjd : j < ((pad_periodic (xs.getD b []) (S - 1) true).drop i).length := by
    simp only [List.length_drop, hplen]
    omega
  rw [List.getElem_take, List.getElem_drop,
    ← getD_eq_get (pad_periodic (xs.getD b []) (S - 1) true) (i + j) 0
      (by rw [hplen]; omega)]
  rw [pad_periodic_getD _ _ _ _ (by omega)]
  rw [show (if (true : Bool) = true then (S - 1) / 2 else 0) = (S - 1) / 2 from rfl]
  congr 2
  push_cast
  ring

/-- C3: extract_patches has shape [batch, W, S]; its entry at batch `b`,
position `i`, slot `j` is the field value at `i` minus the centering offset
plus `j`, wrapped modulo the width; and it is shift-equivariant: the patch
tensor of a field circularly shifted by `k` equals the patch tensor of the
original field circularly shifted by `k` along the position axis. -/
theorem extract_patches_spec (xs : T2) (S k b i j : ℕ)
    (hb : b < xs.length) (hi : i < (xs.getD b []).length) (hj : j < S) :
    (extract_patches xs S).length = xs.length ∧
    ((extract_patches xs S).getD b []).length = (xs.getD b []).length ∧
    (((extract_patches xs S).getD b []).getD i []).length = S ∧
    at3 (extract_patches xs S) b i j
      = (xs.getD b []).getD
          (cyclIdx (xs.getD b []).length
            ((i : ℤ) - (((S - 1) / 2 : ℕ) : ℤ) + (j : ℤ))) 0 ∧
    at3 (extract_patches (rollField xs k) S) b i j
      = at3 (extract_patches xs S) b ((i + k) % (xs.getD b []).length) j := by
  have hW : 0 < (xs.getD b []).length := by omega
  refine ⟨by simp [extract_patches], ?_, ?_, extract_patches_entry xs S b i j hb hi hj, ?_⟩
  · unfold extract_patches
    rw [getD_map_lt _ xs b hb [] []]
    simp
  · unfold extract_patches
    rw [getD_map_lt _ xs b hb [] []]
    rw [getD_rmap _ _ _ hi]
    simp only [List.length_take, List.length_drop, pad_periodic_length]
    omega
  · have hbr : b < (rollField xs k).length := by simpa [rollField] using hb
    have hrow : (rollField xs k).getD b []
        = (List.range (xs.getD b []).length).map
            fun m => (xs.getD b []).getD ((m + k) % (xs.getD b []).length) 0 := by
      unfold rollField
      rw [getD_map_lt _ xs b hb [] []]
    have hir : i < ((rollField xs k).getD b []).length := by
      rw [hrow]
      simpa using hi
    rw [extract_patches_entry (rollField xs k) S b i j hbr hir hj]
    have hik : (i + k) % (xs.getD b []).length < (xs.getD b []).length := Nat.mod_lt _ hW
    rw [extract_patches_entry xs S b ((i + k) % (xs.getD b []).length) j hb hik hj]
    rw [hrow]
    have hlen : ((List.range (xs.getD b []).length).map
        fun m => (xs.getD b []).getD ((m + k) % (xs.getD b []).length) 0).length
        = (xs.getD b []).length := by simp
    rw [hlen]
    have hc : cyclIdx (xs.getD b []).length
        ((i : ℤ) - (((S - 1) / 2 : ℕ) : ℤ) + (j : ℤ)) < (xs.getD b []).length :=
      cyclIdx_lt _ hW _
    rw [getD_rmap _ _ _ hc]
    rw [cyclIdx_add_nat _ hW _ k]
    congr 1
    apply cyclIdx_congr
    push_cast
    exact emod_shift_key _ _ _ k j

/-- Witness for C3 on a width-3 field with window size 3 and shift 1. -/
theorem extract_patches_spec_witness :
    0 < ([[1, 2, 3]] : T2).length ∧ 0 < (([[1, 2, 3]] : T2).getD 0 []).length ∧ 2 < 3 ∧
    ((extract_patches [[1, 2, 3]] 3).length = ([[1, 2, 3]] : T2).length ∧
     ((extract_patches [[1, 2, 3]] 3).getD 0 []).length
        = (([[1, 2, 3]] : T2).getD 0 []).length ∧
     (((extract_patches [[1, 2, 3]] 3).getD 0 []).getD 0 []).length = 3 ∧
     at3 (extract_patches [[1, 2, 3]] 3) 0 0 2
        = (([[1, 2, 3]] : T2).getD 0 []).getD
            (cyclIdx (([[1, 2, 3]] : T2).getD 0 []).length
              ((0 : ℤ) - (((3 - 1) / 2 : ℕ) : ℤ) + (2 : ℤ))) 0 ∧
     at3 (extract_patches (rollField [[1, 2, 3]] 1) 3) 0 0 2
        = at3 (extract_patches [[1, 2, 3]] 3) 0
            ((0 + 1) % (([[1, 2, 3]] : T2).getD 0 []).length) 2) := by
  refine ⟨by decide, by decide, by decide, ?_⟩
  exact extract_patches_spec [[1, 2, 3]] 3 1 0 0 2 (by decide) (by decide) (by decide)

/- ### C4, C5, C9: predict_coefficients -/

theorem sum_map_sub_const (v : List ℚ) (c : ℚ) :
    (v.map fun x => x - c).sum = v.sum - v.length * c := by
  induction v with
  | nil => simp
  | cons a t ih =>
    simp only [List.map_cons, List.sum_cons, ih, List.length_cons]
    push_cast
    ring

/-- Subtracting the mean makes every list sum to zero (exactly, over ℚ). -/
theorem demean_sum (v : List ℚ) : (demean v).sum = 0 := by
  unfold demean
  rw [sum_map_sub_const]
  rcases eq_or_ne v [] with h | h
  · simp [h]
  · have hlen : ((v.length : ℚ)) ≠ 0 := by
      have := List.length_pos.mpr h
      exact_mod_cast this.ne'
    field_simp

/-- C4: with sum-to-zero de-biasing enabled, a positive layer count, no
polynomial-accuracy constraint and no zeroth-order target, every coefficient
vector produced by predict_coefficients sums to zero, for every input,
batch element, position and derivative order, whatever the convolutional
stack computes. -/
theorem predict_coefficients_sum_zero (env : Env) (inputs : T2) (h : HParams)
    (training : Bool) (hub : h.ensure_unbiased_coefficients = true)
    (hnl : 0 < h.num_layers) (hpa : h.polynomial_accuracy_order = 0)
    (h0 : 0 ∉ (env.from_hparams h).DERIVATIVE_ORDERS) :
    ∃ out, predict_coefficients env inputs (PyObj.hparams h) training = Except.ok out ∧
      ∀ row ∈ out, ∀ pos ∈ row, ∀ vec ∈ pos, vec.sum = 0 := by
  have hne : h.num_layers ≠ 0 := hnl.ne'
  simp only [predict_coefficients, asHParams]
  rw [if_neg hne, if_pos hpa, if_pos hub, if_neg h0]
  refine ⟨_, rfl, ?_⟩
  intro row hrow pos hpos vec hvec
  obtain ⟨r, _, rfl⟩ := List.mem_map.mp hrow
  obtain ⟨p, _, rfl⟩ := List.mem_map.mp hpos
  obtain ⟨d, _, rfl⟩ := List.mem_map.mp hvec
  exact demean_sum d

/-- Witness for C4: a two-layer configuration on the advection equation;
the hypotheses hold and every produced coefficient vector sums to zero. -/
theorem predict_coefficients_sum_zero_witness :
    advHParams2.ensure_unbiased_coefficients = true ∧
    0 < advHParams2.num_layers ∧
    advHParams2.polynomial_accuracy_order = 0 ∧
    0 ∉ (testEnv.from_hparams advHParams2).DERIVATIVE_ORDERS ∧
    (∃ out, predict_coefficients testEnv testInputs (PyObj.hparams advHParams2) true
        = Except.ok out ∧
      ∀ row ∈ out, ∀ pos ∈ row, ∀ vec ∈ pos, vec.sum = 0) := by
  refine ⟨by decide, by decide, by decide, by decide, ?_⟩
  exact predict_coefficients_sum_zero testEnv testInputs advHParams2 true
    (by decide) (by decide) (by decide) (by decide)

/-- C5 (amended): the ValueError for sum-to-zero de-biasing together with a
zeroth-order derivative target is raised exactly on the unconstrained
learned path, i.e. when additionally the layer count is positive and no
polynomial accuracy order is set. -/
theorem predict_coefficients_unbiased_zeroth_error (env : Env) (inputs : T2) (h : HParams)
    (training : Bool) (hub : h.ensure_unbiased_coefficients = true)
    (hnl : 0 < h.num_layers) (hpa : h.polynomial_accuracy_order = 0)
    (h0 : 0 ∈ (env.from_hparams h).DERIVATIVE_ORDERS) :
    predict_coefficients env inputs (PyObj.hparams h) training
      = Except.error "ensure_unbiased not yet supported for 0th order spatial derivatives" := by
  have hne : h.num_layers ≠ 0 := hnl.ne'
  simp only [predict_coefficients, asHParams]
  rw [if_neg hne, if_pos hpa, if_pos hub, if_pos h0]

/-- Witness for the amended C5: with one layer, sum-to-zero de-biasing and a
zeroth-order target, predict_coefficients reports the configuration error. -/
theorem predict_coefficients_unbiased_zeroth_error_witness :
    reactHParams1.ensure_unbiased_coefficients = true ∧
    0 < reactHParams1.num_layers ∧
    reactHParams1.polynomial_accuracy_order = 0 ∧
    0 ∈ (testEnv.from_hparams reactHParams1).DERIVATIVE_ORDERS ∧
    predict_coefficients testEnv testInputs (PyObj.hparams reactHParams1) true
      = Except.error "ensure_unbiased not yet supported for 0th order spatial derivatives" := by
  refine ⟨by decide, by decide, by decide, by decide, ?_⟩
  exact predict_coefficients_unbiased_zeroth_error testEnv testInputs reactHParams1 true
    (by decide) (by decide) (by decide) (by decide)

/-- Counterexample to C5 as stated: a configuration that requests sum-to-zero
de-biasing while 0 is among the target derivative orders, but with a
zero-layer model: predict_coefficients returns coefficients and raises no
error. -/
theorem predict_coefficients_unbiased_zero_layers_no_error :
    reactHParams.ensure_unbiased_coefficients = true ∧
    0 ∈ (testEnv.from_hparams reactHParams).DERIVATIVE_ORDERS ∧
    predict_coefficients testEnv testInputs (PyObj.hparams reactHParams) true
      = Except.ok [[[[1, 1]], [[1, 1]]]] := by
  exact ⟨rfl, by decide, rfl⟩

/-- C9: with a zero layer count, predict_coefficients tiles one learned
coefficient matrix over batch and position: the output has one entry per
batch element and per position, and every positional entry equals the single
learned per-derivative coefficient matrix, independently of the input
values. -/
theorem predict_coefficients_zero_layers (env : Env) (inputs : T2) (h : HParams)
    (training : Bool) (hnl : h.num_layers = 0) :
    ∃ out, predict_coefficients env inputs (PyObj.hparams h) training = Except.ok out ∧
      out.length = inputs.length ∧
      (∀ row ∈ out, row.length = width inputs) ∧
      (∀ row ∈ out, ∀ pos ∈ row,
        pos = (List.range (env.from_hparams h).DERIVATIVE_ORDERS.length).map fun d =>
          (List.range (env.regular_finite_difference_grid
              (env.from_hparams h).GRID_OFFSET 0 h.coefficient_grid_min_size 1).size).map
            fun c => env.get_variable "coefficients" d c) := by
  simp only [predict_coefficients, asHParams]
  rw [if_pos hnl]
  refine ⟨_, rfl, by simp, ?_, ?_⟩
  · intro row hrow
    obtain ⟨b, _, rfl⟩ := List.mem_map.mp hrow
    simp
  · intro row hrow pos hpos
    obtain ⟨b, _, rfl⟩ := List.mem_map.mp hrow
    obtain ⟨x, _, rfl⟩ := List.mem_map.mp hpos
    rfl

/-- Witness for C9 with the concrete zero-layer advection configuration. -/
theorem predict_coefficients_zero_layers_witness :
    advHParams.num_layers = 0 ∧
    (∃ out, predict_coefficients testEnv testInputs (PyObj.hparams advHParams) true
        = Except.ok out ∧
      out.length = testInputs.length ∧
      (∀ row ∈ out, row.length = width testInputs) ∧
      (∀ row ∈ out, ∀ pos ∈ row,
        pos = (List.range (testEnv.from_hparams advHParams).DERIVATIVE_ORDERS.length).map
          fun d => (List.range (testEnv.regular_finite_difference_grid
              (testEnv.from_hparams advHParams).GRID_OFFSET 0
              advHParams.coefficient_grid_min_size 1).size).map
            fun c => testEnv.get_variable "coefficients" d c)) := by
  refine ⟨by decide, ?_⟩
  exact predict_coefficients_zero_layers testEnv testInputs advHParams true (by decide)

/- ### C1: predict_time_derivative passes inputs where hparams is expected -/

/-- C1: evaluating the source's predict_time_derivative on a concrete
environment, input and hyperparameters: because the inner call passes the
inputs tensor as the configuration argument, the attribute lookup fails and
the whole call raises, while the composition the claim (and the spec)
describes - predict_space_derivatives with the hyperparameters, then
apply_space_derivatives - succeeds and returns the advection time
derivative. -/
theorem predict_time_derivative_argument_bug :
    predict_time_derivative testEnv testInputs (PyObj.hparams advHParams)
      = Except.error "AttributeError: not an HParams object" ∧
    predict_space_derivatives testEnv testInputs (PyObj.hparams advHParams)
      = Except.ok [[[3], [3]]] ∧
    apply_space_derivatives testEnv [[[3], [3]]] testInputs (PyObj.hparams advHParams)
      = Except.ok [[-3, -3]] := by
  refine ⟨rfl, ?_, rfl⟩
  have hcoef : predict_coefficients testEnv testInputs (PyObj.hparams advHParams) true
      = Except.ok [[[[1, 1]], [[1, 1]]]] := rfl
  simp only [predict_space_derivatives, hcoef]
  norm_num [apply_coefficients, extract_patches, pad_periodic, cyclIdx, dotL, testInputs,
    show List.range 1 = [0] from rfl, show List.range 2 = [0, 1] from rfl,
    show List.range 3 = [0, 1, 2] from rfl, List.getD]

/- ### C2 and C6: loss-scale calibration -/

/-- The dataset derived from calibSnapshots is calibData. -/
theorem calib_data_loads :
    make_dataset_loaded testEnv calibSnapshots calibHParams true
      = Except.ok calibData := by
  have hs1 : ¬ ("subsample" : String) = "mean" := by decide
  have hs2 : ¬ ("advection" : String) = "reaction" := by decide
  norm_num [hs1, hs2, make_dataset_loaded, pyRound, chunkList, chunkAux, mapExcept,
    model_inputs,
    resampleFunc, toTensor, ofTensor2, subsample, stack_channels,
    calculate_baseline_derivatives, baseline_space_derivatives, dictOf, at2, width,
    testEnv, calibHParams, advHParams, advEq, EquationType.make, calibSnapshots,
    calibData, List.getD, show List.range 1 = [0] from rfl,
    show List.range 2 = [0, 1] from rfl, show List.range 4 = [0, 1, 2, 3] from rfl]

/-- The per-head, per-channel mean zero-prediction error of calibData. -/
theorem calib_mean_value :
    dls_mean_zero_error calibData calibHParams
      = [[5, 5], [5000000000000, 5000000000000]] := by
  norm_num [dls_mean_zero_error, dls_error_floor, loss_components, zeros_like, meanEX,
    map2cells, at3, dim2, dim3, npPercentile, sortAsc, insertAsc, calibHParams,
    advHParams, calibData, List.getD, show List.range 1 = [0] from rfl,
    show List.range 2 = [0, 1] from rfl, show List.range 4 = [0, 1, 2, 3] from rfl]

/-- C2: for every snapshot set and configuration whose dataset loads, if
every per-head, per-channel mean loss component of the all-zero prediction
over that dataset is positive, then determine_loss_scales succeeds and
multiplying each mean by the matching entry of the returned error_scale
gives exactly 1. -/
theorem determine_loss_scales_calibrates (env : Env) (snapshots : T2) (hparams : HParams)
    (data : LoadedData)
    (hdata : make_dataset_loaded env snapshots hparams true = Except.ok data)
    (hpos : ∀ hd d, hd < (dls_mean_zero_error data hparams).length →
      d < ((dls_mean_zero_error data hparams).getD hd []).length →
      0 < ((dls_mean_zero_error data hparams).getD hd []).getD d 0) :
    ∃ error_floor error_scale,
      determine_loss_scales env snapshots hparams
        = Except.ok (error_floor, error_scale) ∧
      ∀ hd d, hd < (dls_mean_zero_error data hparams).length →
        d < ((dls_mean_zero_error data hparams).getD hd []).length →
        ((dls_mean_zero_error data hparams).getD hd []).getD d 0
          * (error_scale.getD hd []).getD d 0 = 1 := by
  refine ⟨dls_error_floor data hparams,
    (dls_mean_zero_error data hparams).map (·.map fun m => if 0 < m then 1 / m else 0),
    ?_, ?_⟩
  · simp only [determine_loss_scales, hdata]
  · intro hd d hhd hdd
    have hm := hpos hd d hhd hdd
    rw [getD_map_lt _ _ hd hhd [] [], getD_map_lt _ _ d hdd 0 0, if_pos hm]
    exact mul_one_div_cancel hm.ne'

/-- Witness for C2 on the concrete calibration snapshots: the dataset loads
to calibData, the four means (5, 5, 5e12, 5e12) are positive, and each
times its scale is 1. -/
theorem determine_loss_scales_calibrates_witness :
    make_dataset_loaded testEnv calibSnapshots calibHParams true
      = Except.ok calibData ∧
    (∀ hd d, hd < (dls_mean_zero_error calibData calibHParams).length →
      d < ((dls_mean_zero_error calibData calibHParams).getD hd []).length →
      0 < ((dls_mean_zero_error calibData calibHParams).getD hd []).getD d 0) ∧
    (∃ error_floor error_scale,
      determine_loss_scales testEnv calibSnapshots calibHParams
        = Except.ok (error_floor, error_scale) ∧
      ∀ hd d, hd < (dls_mean_zero_error calibData calibHParams).length →
        d < ((dls_mean_zero_error calibData calibHParams).getD hd []).length →
        ((dls_mean_zero_error calibData calibHParams).getD hd []).getD d 0
          * (error_scale.getD hd []).getD d 0 = 1) := by
  have hpos : ∀ hd d, hd < (dls_mean_zero_error calibData calibHParams).length →
      d < ((dls_mean_zero_error calibData calibHParams).getD hd []).length →
      0 < ((dls_mean_zero_error calibData calibHParams).getD hd []).getD d 0 := by
    intro hd d hhd hdd
    rw [calib_mean_value] at hhd hdd ⊢
    have hhd2 : hd < 2 := by simpa using hhd
    interval_cases hd
    · have hdd2 : d < 2 := by simpa using hdd
      interval_cases d <;> norm_num [List.getD]
    · have hdd2 : d < 2 := by simpa using hdd
      interval_cases d <;> norm_num [List.getD]
  exact ⟨calib_data_loads, hpos,
    determine_loss_scales_calibrates testEnv calibSnapshots calibHParams calibData
      calib_data_loads hpos⟩

/-- C6: for every snapshot set and configuration whose (nonempty) dataset
loads, determine_loss_scales succeeds; the returned error floor per channel
is the configured percentile of the squared baseline error floored at
1e-12, hence strictly positive; every denominator baseline_error +
error_floor formed by loss_components from it is therefore strictly
positive; and a channel/head whose mean zero-prediction error is not
positive gets scale exactly 0, never an infinite one. -/
theorem determine_loss_scales_degenerate (env : Env) (snapshots : T2) (hparams : HParams)
    (data : LoadedData)
    (hdata : make_dataset_loaded env snapshots hparams true = Except.ok data)
    (hE : 0 < data.labels.length) (hX : 0 < dim2 data.labels) :
    ∃ error_floor error_scale,
      determine_loss_scales env snapshots hparams
        = Except.ok (error_floor, error_scale) ∧
      (∀ d, d < dim3 data.labels →
        error_floor.getD d 0
          = max (npPercentile
              ((List.range data.labels.length).flatMap fun e =>
                (List.range (dim2 data.labels)).map fun x =>
                  (at3 data.labels e x d - at3 data.baseline e x d) ^ 2)
              (100 * hparams.error_floor_quantile)) (1 / 10 ^ 12) ∧
        0 < error_floor.getD d 0) ∧
      (∀ (label baseline_value : ℚ) (d : ℕ), d < dim3 data.labels →
        0 < (label - baseline_value) ^ 2 + error_floor.getD d 0) ∧
      (∀ hd d, hd < (dls_mean_zero_error data hparams).length →
        d < ((dls_mean_zero_error data hparams).getD hd []).length →
        ¬ 0 < ((dls_mean_zero_error data hparams).getD hd []).getD d 0 →
        (error_scale.getD hd []).getD d 0 = 0) := by
  have hfl : ∀ d, d < dim3 data.labels →
      (dls_error_floor data hparams).getD d 0
        = max (npPercentile
            ((List.range data.labels.length).flatMap fun e =>
              (List.range (dim2 data.labels)).map fun x =>
                (at3 data.labels e x d - at3 data.baseline e x d) ^ 2)
            (100 * hparams.error_floor_quantile)) (1 / 10 ^ 12) := by
    intro d hd
    simp only [dls_error_floor]
    exact getD_rmap _ _ _ hd _
  have hflpos : ∀ d, d < dim3 data.labels →
      0 < (dls_error_floor data hparams).getD d 0 := by
    intro d hd
    rw [hfl d hd]
    exact lt_of_lt_of_le (by norm_num) (le_max_right _ _)
  refine ⟨dls_error_floor data hparams,
    (dls_mean_zero_error data hparams).map (·.map fun m => if 0 < m then 1 / m else 0),
    ?_, fun d hd => ⟨hfl d hd, hflpos d hd⟩, ?_, ?_⟩
  · simp only [determine_loss_scales, hdata]
  · intro label baseline_value d hd
    exact add_pos_of_nonneg_of_pos (sq_nonneg _) (hflpos d hd)
  · intro hd d hhd hdd hm
    rw [getD_map_lt _ _ hd hhd [] [], getD_map_lt _ _ d hdd 0 0, if_neg hm]

/-- Witness for C6 on the concrete calibration snapshots, whose baseline
error is identically zero: the dataset loads, is nonempty, and the
conclusion holds at it (in particular the floor is exactly 1e-12 there). -/
theorem determine_loss_scales_degenerate_witness :
    make_dataset_loaded testEnv calibSnapshots calibHParams true
      = Except.ok calibData ∧
    0 < calibData.labels.length ∧ 0 < dim2 calibData.labels ∧
    (∃ error_floor error_scale,
      determine_loss_scales testEnv calibSnapshots calibHParams
        = Except.ok (error_floor, error_scale) ∧
      (∀ d, d < dim3 calibData.labels →
        error_floor.getD d 0
          = max (npPercentile
              ((List.range calibData.labels.length).flatMap fun e =>
                (List.range (dim2 calibData.labels)).map fun x =>
                  (at3 calibData.labels e x d - at3 calibData.baseline e x d) ^ 2)
              (100 * calibHParams.error_floor_quantile)) (1 / 10 ^ 12) ∧
        0 < error_floor.getD d 0) ∧
      (∀ (label baseline_value : ℚ) (d : ℕ), d < dim3 calibData.labels →
        0 < (label - baseline_value) ^ 2 + error_floor.getD d 0) ∧
      (∀ hd d, hd < (dls_mean_zero_error calibData calibHParams).length →
        d < ((dls_mean_zero_error calibData calibHParams).getD hd []).length →
        ¬ 0 < ((dls_mean_zero_error calibData calibHParams).getD hd []).getD d 0 →
        (error_scale.getD hd []).getD d 0 = 0)) := by
  exact ⟨calib_data_loads, by decide, by decide,
    determine_loss_scales_degenerate testEnv calibSnapshots calibHParams calibData
      calib_data_loads (by decide) (by decide)⟩

/- ### C10: positional convention of derivative channels -/

theorem filter_enumFrom_not_mem : ∀ (t : List ℕ) (a s : ℕ), a ∉ t →
    (List.enumFrom s t).filter (fun p => p.2 == a) = []
  | [], _, _, _ => rfl
  | b :: t, a, s, ha => by
    have hsplit : b ≠ a ∧ a ∉ t := by
      simp only [List.mem_cons, not_or] at ha
      exact ⟨fun hEq => ha.1 hEq.symm, ha.2⟩
    show (((s, b) :: List.enumFrom (s + 1) t).filter fun p => p.2 == a) = []
    rw [List.filter_cons]
    have hfb : ((s, b).2 == a) = false := by simpa using hsplit.1
    rw [hfb]
    simp only [Bool.false_eq_true, if_false]
    exact filter_enumFrom_not_mem t a (s + 1) hsplit.2

theorem filter_enumFrom_nodup : ∀ (orders : List ℕ) (s i : ℕ), orders.Nodup →
    i < orders.length →
    (List.enumFrom s orders).filter (fun p => p.2 == orders.getD i 0)
      = [(s + i, orders.getD i 0)]
  | [], _, i, _, hi => by simp at hi
  | a :: t, s, 0, hnd, _ => by
    have hnd' : a ∉ t ∧ t.Nodup := by simpa [List.nodup_cons] using hnd
    show (((s, a) :: List.enumFrom (s + 1) t).filter fun p => p.2 == (a :: t).getD 0 0)
      = [(s + 0, (a :: t).getD 0 0)]
    have hkey : (a :: t).getD 0 0 = a := rfl
    rw [hkey, List.filter_cons]
    have hfa : ((s, a).2 == a) = true := by simp
    rw [hfa]
    simp only [if_true]
    rw [filter_enumFrom_not_mem t a (s + 1) hnd'.1]
    simp
  | a :: t, s, i + 1, hnd, hi => by
    have hnd' : a ∉ t ∧ t.Nodup := by simpa [List.nodup_cons] using hnd
    have hi' : i < t.length := by simpa using hi
    have hkey : (a :: t).getD (i + 1) 0 = t.getD i 0 := rfl
    show (((s, a) :: List.enumFrom (s + 1) t).filter fun p => p.2 == (a :: t).getD (i + 1) 0)
      = [(s + (i + 1), (a :: t).getD (i + 1) 0)]
    rw [hkey, List.filter_cons]
    have hmem : t.getD i 0 ∈ t := by
      rw [getD_eq_get t i 0 hi']
      exact List.getElem_mem hi'
    have hne : ((s, a).2 == t.getD i 0) = false := by
      have : a ≠ t.getD i 0 := fun hEq => hnd'.1 (hEq ▸ hmem)
      simpa using this
    rw [hne]
    simp only [Bool.false_eq_true, if_false]
    rw [filter_enumFrom_nodup t (s + 1) i hnd'.2 hi']
    have hs : s + 1 + i = s + (i + 1) := by omega
    rw [hs]

/-- When the declared derivative orders have no duplicates, the dict built
by apply_space_derivatives sends the i-th declared order to channel i of
the derivatives tensor. -/
theorem space_derivatives_dict_at (orders : List ℕ) (derivatives : T3) (i : ℕ)
    (hnd : orders.Nodup) (hi : i < orders.length) :
    space_derivatives_dict orders derivatives (orders.getD i 0)
      = some (chan derivatives i) := by
  unfold space_derivatives_dict dictOf
  rw [List.filter_map]
  have hp : ((fun p => p.1 == orders.getD i 0) ∘
        fun p : ℕ × ℕ => (p.2, chan derivatives p.1))
      = fun p : ℕ × ℕ => p.2 == orders.getD i 0 := rfl
  rw [hp]
  rw [show List.enum orders = List.enumFrom 0 orders from rfl]
  rw [filter_enumFrom_nodup orders 0 i hnd hi]
  simp

/-- C10: calculate_baseline_derivatives returns the spatial derivatives in
declaration order followed by the time derivative (length n+1, i-th entry
the finite-difference derivative of the i-th declared order, last entry the
equation of motion); apply_space_derivatives re-keys channel i by the i-th
declared order and feeds that dict to the equation of motion; and
stack_space_time as used by predict_all_derivatives appends the time
derivative as the final channel. -/
theorem derivative_channel_convention (env : Env) (inputs : T2) (equation : Equation)
    (derivatives sp : T3) (td : T2) (h : HParams) (i b x : ℕ) :
    (calculate_baseline_derivatives env inputs equation).length
      = equation.DERIVATIVE_ORDERS.length + 1 ∧
    (i < equation.DERIVATIVE_ORDERS.length →
      (calculate_baseline_derivatives env inputs equation).getD i []
        = env.apply_finite_differences inputs
            (env.regular_finite_difference_grid equation.GRID_OFFSET
              (equation.DERIVATIVE_ORDERS.getD i 0) 1 equation.dx)
            (equation.DERIVATIVE_ORDERS.getD i 0)) ∧
    (calculate_baseline_derivatives env inputs equation).getLast?
      = some (equation.equation_of_motion inputs
          (dictOf (equation.DERIVATIVE_ORDERS.zip
            (baseline_space_derivatives env inputs equation)))) ∧
    (equation.DERIVATIVE_ORDERS.Nodup → i < equation.DERIVATIVE_ORDERS.length →
      space_derivatives_dict equation.DERIVATIVE_ORDERS derivatives
          (equation.DERIVATIVE_ORDERS.getD i 0)
        = some (chan derivatives i)) ∧
    (apply_space_derivatives env derivatives inputs (PyObj.hparams h)
      = Except.ok (((env.from_hparams h).make (width inputs)).equation_of_motion inputs
          (space_derivatives_dict
            ((env.from_hparams h).make (width inputs)).DERIVATIVE_ORDERS derivatives))) ∧
    (b < sp.length → b < td.length → x < (sp.getD b []).length → x < (td.getD b []).length →
      ((stack_space_time sp td).getD b []).getD x []
        = (sp.getD b []).getD x [] ++ [(td.getD b []).getD x 0]) ∧
    (predict_space_derivatives env inputs (PyObj.hparams h) = Except.ok sp →
      apply_space_derivatives env sp inputs (PyObj.hparams h) = Except.ok td →
      predict_all_derivatives env inputs (PyObj.hparams h)
        = Except.ok (stack_space_time sp td)) := by
  refine ⟨?_, ?_, ?_, ?_, rfl, ?_, ?_⟩
  · simp [calculate_baseline_derivatives, baseline_space_derivatives]
  · intro hi
    have hlen : i < (baseline_space_derivatives env inputs equation).length := by
      simpa [baseline_space_derivatives] using hi
    simp only [calculate_baseline_derivatives]
    rw [getD_eq_get _ i [] (by simp [List.length_append]; omega)]
    rw [List.getElem_append_left hlen]
    rw [← getD_eq_get _ i [] hlen]
    simp only [baseline_space_derivatives]
    rw [getD_map_lt _ _ i hi [] 0]
  · simp only [calculate_baseline_derivatives]
    exact List.getLast?_concat _
  · intro hnd hi
    exact space_derivatives_dict_at equation.DERIVATIVE_ORDERS derivatives i hnd hi
  · intro h1 h2 h3 h4
    rw [getD_eq_get sp b [] h1] at h3
    rw [getD_eq_get td b [] h2] at h4
    unfold stack_space_time
    have hbz : b < (List.zipWith (fun srow trow =>
        srow.zipWith (fun svec tval => svec ++ [tval]) trow) sp td).length := by
      simp only [List.length_zipWith]
      omega
    rw [getD_eq_get _ b [] hbz, List.getElem_zipWith]
    have hxz : x < (List.zipWith (fun svec tval => svec ++ [tval]) sp[b] td[b]).length := by
      simp only [List.length_zipWith]
      omega
    rw [getD_eq_get _ x [] hxz, List.getElem_zipWith]
    rw [getD_eq_get sp b [] h1, getD_eq_get td b [] h2,
      getD_eq_get _ x [] h3, getD_eq_get _ x 0 h4]
  · intro hsp htd
    simp only [predict_all_derivatives, hsp, htd]

/-- Witness for C10 with the concrete advection instantiation: one spatial
channel plus one time channel, the dict keys channel 0 by order 1, and the
stacked prediction places the time derivative last. -/
theorem derivative_channel_convention_witness :
    (calculate_baseline_derivatives testEnv testInputs (advEq.make 2)).length
      = (advEq.make 2).DERIVATIVE_ORDERS.length + 1 ∧
    (advEq.make 2).DERIVATIVE_ORDERS.Nodup ∧
    0 < (advEq.make 2).DERIVATIVE_ORDERS.length ∧
    space_derivatives_dict (advEq.make 2).DERIVATIVE_ORDERS [[[5], [6]]]
        ((advEq.make 2).DERIVATIVE_ORDERS.getD 0 0)
      = some (chan [[[5], [6]]] 0) ∧
    predict_all_derivatives testEnv testInputs (PyObj.hparams advHParams)
      = Except.ok (stack_space_time [[[3], [3]]] [[-3, -3]]) := by
  have H := derivative_channel_convention testEnv testInputs (advEq.make 2)
    [[[5], [6]]] [[[3], [3]]] [[-3, -3]] advHParams 0 0 0
  have hcoef : predict_coefficients testEnv testInputs (PyObj.hparams advHParams) true
      = Except.ok [[[[1, 1]], [[1, 1]]]] := rfl
  have hsp : predict_space_derivatives testEnv testInputs (PyObj.hparams advHParams)
      = Except.ok [[[3], [3]]] := by
    simp only [predict_space_derivatives, hcoef]
    norm_num [apply_coefficients, extract_patches, pad_periodic, cyclIdx, dotL, testInputs,
      show List.range 1 = [0] from rfl, show List.range 2 = [0, 1] from rfl,
      show List.range 3 = [0, 1, 2] from rfl, List.getD]
  have htd : apply_space_derivatives testEnv [[[3], [3]]] testInputs
      (PyObj.hparams advHParams) = Except.ok [[-3, -3]] := rfl
  exact ⟨H.1, by decide, by decide, H.2.2.2.1 (by decide) (by decide),
    H.2.2.2.2.2.2 hsp htd⟩

end PDE
